import Mathlib

/-!
# Verification of the Authy backup decryption pipeline (decrypt.py)

A shallow embedding of the token-decryption module: bytes are `List Nat`
(each entry `< 256`), text is `String`/`List Char`, Python exceptions are
`Except` errors, and the JSON token records are structures with `Option`
fields (a `none` field models a missing dictionary key, whose access raises
`KeyError`).  Diagnostic printing (`verbose_output`) has no observable
effect on the returned values and is omitted.  File input/output in
`process_authenticator_data` is abstracted: the function takes the already
parsed JSON value and returns `none` when the program aborts without
writing an output file.
-/

/-- Errors that can be raised inside a single token's decryption pipeline
(`decrypt_token`'s `try` block).  Each constructor corresponds to a Python
exception raised by one of the stages; `errMessage` renders `str(e)`. -/
inductive PipeErr where
  | b64NonAscii : PipeErr
  | b64IncorrectPadding : PipeErr
  | b64InvalidLength : PipeErr
  | fromhexError : PipeErr
  | invalidIVLength (len : Nat) : PipeErr
  | notMultipleOfBlock : PipeErr
  | indexOutOfRange : PipeErr
  | invalidPaddingLength : PipeErr
  | invalidPaddingBytes : PipeErr
  | unicodeDecodeError : PipeErr
deriving DecidableEq

/-- `str(e)` of the Python exception modelled by each `PipeErr`. -/
def errMessage : PipeErr → String
  | .b64NonAscii => "string argument should contain only ASCII characters"
  | .b64IncorrectPadding => "Incorrect padding"
  | .b64InvalidLength => "Invalid base64-encoded string"
  | .fromhexError => "non-hexadecimal number found in fromhex() arg"
  | .invalidIVLength len => "Invalid IV length: " ++ toString len
  | .notMultipleOfBlock => "The length of the provided data is not a multiple of the block length."
  | .indexOutOfRange => "index out of range"
  | .invalidPaddingLength => "Invalid padding length"
  | .invalidPaddingBytes => "Invalid padding bytes"
  | .unicodeDecodeError => "invalid utf-8 byte sequence"

/-- A `KeyError` raised by a Python dictionary access `token["key"]`. -/
inductive KeyErr where
  | keyError (key : String) : KeyErr
deriving DecidableEq

/-! ## Byte-level helpers -/

/-- Truncation to a 32-bit word. -/
def w32 (n : Nat) : Nat := n % 4294967296

/-- Rotate a 32-bit word left by `k` bits. -/
def rotl32 (n k : Nat) : Nat := w32 ((n <<< k) ||| (n >>> (32 - k)))

/-- Pointwise xor of two byte strings. -/
def zipXor (a b : List Nat) : List Nat := List.zipWith (fun x y => x ^^^ y) a b

/-- Structurally recursive chunking, with the list length as fuel (each
step consumes at least one element when `k` is positive, so the fuel never
runs out at a non-empty list). -/
def chunksFuel (k : Nat) : Nat → List Nat → List (List Nat)
  | _, [] => []
  | 0, _ :: _ => []
  | fuel + 1, b :: rest => ((b :: rest).take k) :: chunksFuel k fuel ((b :: rest).drop k)

/-- Split a byte string into `k`-byte groups. -/
def chunks (k : Nat) (l : List Nat) : List (List Nat) := chunksFuel k l.length l

/-- Split a byte string into 4-byte groups. -/
def chunks4 (l : List Nat) : List (List Nat) := chunks 4 l

/-- Split a byte string into 16-byte groups (AES blocks). -/
def chunks16 (l : List Nat) : List (List Nat) := chunks 16 l

/-- Split a byte string into 64-byte groups (SHA-1 blocks). -/
def chunks64 (l : List Nat) : List (List Nat) := chunks 64 l

/-- Big-endian 32-bit word from 4 bytes. -/
def beWord (l : List Nat) : Nat := l.foldl (fun a b => a * 256 + b) 0

/-- 4 big-endian bytes of a 32-bit word. -/
def wordBytesBE (n : Nat) : List Nat :=
  [n / 16777216 % 256, n / 65536 % 256, n / 256 % 256, n % 256]

/-- 8 big-endian bytes of a 64-bit value (SHA-1 length field). -/
def be64 (n : Nat) : List Nat := (List.range 8).map (fun i => n / 2 ^ (56 - 8 * i) % 256)

/-- UTF-8 encoding of one character (`str.encode()` for one code point). -/
def utf8EncodeChar (c : Char) : List Nat :=
  let n := c.toNat
  if n ≤ 127 then [n]
  else if n ≤ 2047 then [192 + n / 64, 128 + n % 64]
  else if n ≤ 65535 then [224 + n / 4096, 128 + n / 64 % 64, 128 + n % 64]
  else [240 + n / 262144, 128 + n / 4096 % 64, 128 + n / 64 % 64, 128 + n % 64]

/-- UTF-8 encoding of a string (Python `str.encode()`). -/
def utf8Encode (s : String) : List Nat := (s.data.map utf8EncodeChar).flatten

/-! ## SHA-1, HMAC-SHA1 and PBKDF2 (the `derive_key` stage)

`derive_key` calls `PBKDF2HMAC(algorithm=SHA1, length=32, salt, iterations)`
from the `cryptography` package; the primitives are embedded from their
standard definitions (FIPS 180-4, RFC 2104, RFC 2898). -/

/-- SHA-1 message padding: `0x80`, zeros to 56 mod 64, 64-bit bit length. -/
def sha1Pad (msg : List Nat) : List Nat :=
  msg ++ [128] ++ List.replicate ((119 - msg.length % 64) % 64) 0 ++ be64 (8 * msg.length)

/-- One SHA-1 compression of a 64-byte block into the 5-word state. -/
def sha1Compress (h : List Nat) (block : List Nat) : List Nat :=
  let w0 := (chunks4 block).map beWord
  let w := (List.range 64).foldl (fun w _ =>
      w ++ [rotl32 ((w.get! (w.length - 3)) ^^^ (w.get! (w.length - 8)) ^^^
        (w.get! (w.length - 14)) ^^^ (w.get! (w.length - 16))) 1]) w0
  let st := (List.range 80).foldl (fun st t =>
      match st with
      | (a, b, c, d, e) =>
        let f := if t < 20 then (b &&& c) ||| ((b ^^^ 4294967295) &&& d)
                 else if t < 40 then b ^^^ c ^^^ d
                 else if t < 60 then (b &&& c) ||| (b &&& d) ||| (c &&& d)
                 else b ^^^ c ^^^ d
        let k := if t < 20 then 1518500249
                 else if t < 40 then 1859775393
                 else if t < 60 then 2400959708
                 else 3395469782
        (w32 (rotl32 a 5 + f + e + k + w.get! t), a, rotl32 b 30, c, d))
    (h.get! 0, h.get! 1, h.get! 2, h.get! 3, h.get! 4)
  match st with
  | (a, b, c, d, e) =>
    [w32 (h.get! 0 + a), w32 (h.get! 1 + b), w32 (h.get! 2 + c),
     w32 (h.get! 3 + d), w32 (h.get! 4 + e)]

/-- SHA-1 digest (20 bytes) of a byte string. -/
def sha1 (msg : List Nat) : List Nat :=
  let blocks := chunks64 (sha1Pad msg)
  let h := blocks.foldl sha1Compress
    [1732584193, 4023233417, 2562383102, 271733878, 3285377520]
  (h.map wordBytesBE).flatten

/-- HMAC-SHA1 (RFC 2104) with a 64-byte block size. -/
def hmacSha1 (key msg : List Nat) : List Nat :=
  let k0 := if 64 < key.length then sha1 key else key
  let k := k0 ++ List.replicate (64 - k0.length) 0
  sha1 ((k.map (fun b => b ^^^ 92)) ++ sha1 ((k.map (fun b => b ^^^ 54)) ++ msg))

/-- One PBKDF2 output block `T_i = U_1 xor ... xor U_c` (RFC 2898).
The source always supplies the backup's positive iteration count. -/
def pbkdf2Block (password salt : List Nat) (iterations blockIndex : Nat) : List Nat :=
  let u1 := hmacSha1 password (salt ++ wordBytesBE blockIndex)
  ((List.range (iterations - 1)).foldl (fun acc _ =>
      match acc with
      | (t, u) =>
        let u2 := hmacSha1 password u
        (zipXor t u2, u2)) (u1, u1)).1

/-- `derive_key` (decrypt.py lines 71-94): PBKDF2-HMAC-SHA1 with a 32-byte
output, salt and passphrase taken as the UTF-8 bytes of the given strings. -/
def derive_key (kdf_rounds : Nat) (salt passphrase : String) : List Nat :=
  let password := utf8Encode passphrase
  let saltBytes := utf8Encode salt
  (pbkdf2Block password saltBytes kdf_rounds 1 ++
   pbkdf2Block password saltBytes kdf_rounds 2).take 32

/-! ## AES-256 inverse cipher and CBC mode (the `decrypt_data` stage)

The field arithmetic and the S-box are embedded from FIPS 197; the S-box is
given by its defining formula (multiplicative inverse in GF(2^8) followed by
the affine map) rather than as a lookup table. -/

/-- Multiplication by `x` in GF(2^8) modulo `x^8 + x^4 + x^3 + x + 1`. -/
def xtime (a : Nat) : Nat :=
  let d := a * 2
  if 256 ≤ d then d ^^^ 283 else d

/-- Multiplication in GF(2^8). -/
def gfMul (a b : Nat) : Nat :=
  ((List.range 8).foldl (fun acc i =>
      match acc with
      | (s, aa) => (if b / 2 ^ i % 2 = 1 then s ^^^ aa else s, xtime aa)) (0, a)).1

/-- Exponentiation in GF(2^8). -/
def gfPow (a : Nat) : Nat → Nat
  | 0 => 1
  | n + 1 => gfMul a (gfPow a n)

/-- Multiplicative inverse in GF(2^8) (with `0⁻¹ = 0`). -/
def gfInv (a : Nat) : Nat := if a = 0 then 0 else gfPow a 254

/-- Rotate an 8-bit value left by `k` bits. -/
def rotl8 (x k : Nat) : Nat := ((x <<< k) ||| (x >>> (8 - k))) % 256

/-- The AES S-box: affine map of the GF(2^8) inverse. -/
def sbox (b : Nat) : Nat :=
  let s := gfInv b
  s ^^^ rotl8 s 1 ^^^ rotl8 s 2 ^^^ rotl8 s 3 ^^^ rotl8 s 4 ^^^ 99

/-- The inverse AES S-box: GF(2^8) inverse of the inverse affine map. -/
def invSbox (b : Nat) : Nat := gfInv (rotl8 b 1 ^^^ rotl8 b 3 ^^^ rotl8 b 6 ^^^ 5)

/-- AES-256 key expansion: the list of 60 round-key words (Nk = 8, Nr = 14). -/
def aesKeyWords (key : List Nat) : List (List Nat) :=
  let init := (List.range 8).map (fun i => (key.drop (4 * i)).take 4)
  (List.range 52).foldl (fun ws k =>
    let j := k + 8
    let prev := ws.getLast!
    let temp :=
      if j % 8 = 0 then
        zipXor ((prev.drop 1 ++ prev.take 1).map sbox) [gfPow 2 (j / 8 - 1), 0, 0, 0]
      else if j % 8 = 4 then prev.map sbox
      else prev
    ws ++ [zipXor (ws.get! (j - 8)) temp]) init

/-- The 15 AES-256 round keys, each 16 bytes in state order. -/
def roundKeys (key : List Nat) : List (List Nat) :=
  (List.range 15).map (fun r => (((aesKeyWords key).drop (4 * r)).take 4).flatten)

/-- InvShiftRows on a 16-byte state (`state[r + 4c] = bytes[r + 4c]`). -/
def invShiftRows (st : List Nat) : List Nat :=
  List.ofFn (fun i : Fin 16 =>
    let r := i.val % 4
    let c := i.val / 4
    st.get! (r + 4 * ((c + 4 - r) % 4)))

/-- InvMixColumns on a 16-byte state. -/
def invMixColumns (st : List Nat) : List Nat :=
  List.ofFn (fun i : Fin 16 =>
    let r := i.val % 4
    let c := i.val / 4
    let coef := fun j : Nat => [14, 11, 13, 9].get! ((j + 4 - r) % 4)
    gfMul (coef 0) (st.get! (4 * c)) ^^^ gfMul (coef 1) (st.get! (4 * c + 1)) ^^^
      gfMul (coef 2) (st.get! (4 * c + 2)) ^^^ gfMul (coef 3) (st.get! (4 * c + 3)))

/-- The AES inverse cipher (FIPS 197, InvCipher) on one 16-byte block. -/
def invCipher (rks : List (List Nat)) (block : List Nat) : List Nat :=
  let st := zipXor block (rks.get! 14)
  let st := (List.range 13).foldl (fun st k =>
      invMixColumns (zipXor ((invShiftRows st).map invSbox) (rks.get! (13 - k)))) st
  zipXor ((invShiftRows st).map invSbox) (rks.get! 0)

/-- CBC-mode chaining: each plaintext block is the inverse cipher of the
ciphertext block xored with the previous ciphertext block (or the IV). -/
def cbcDecrypt (rks : List (List Nat)) (prev : List Nat) : List (List Nat) → List Nat
  | [] => []
  | c :: rest => zipXor (invCipher rks c) prev ++ cbcDecrypt rks c rest

/-- `decrypt_data` (decrypt.py lines 97-116): AES-CBC decryption of the
encrypted seed with the derived 32-byte key and 16-byte IV.  The
`cryptography` backend raises `ValueError` at `finalize()` when the
ciphertext length is not a multiple of the 16-byte block length. -/
def decrypt_data (encrypted_seed key iv : List Nat) : Except PipeErr (List Nat) :=
  if encrypted_seed.length % 16 ≠ 0 then .error .notMultipleOfBlock
  else .ok (cbcDecrypt (roundKeys key) iv (chunks16 encrypted_seed))

/-! ## Base64 decoding (the `decode_base64_seed` stage)

Python's `base64.b64decode` with `validate=False` (the default used by the
source) first requires the string to be ASCII, then *discards* every
character outside the Base64 alphabet and `=`, and only then decodes,
failing when the filtered string's length or padding placement is invalid. -/

/-- Membership in the standard Base64 alphabet. -/
def isB64Char (c : Char) : Bool :=
  ('A' ≤ c && c ≤ 'Z') || ('a' ≤ c && c ≤ 'z') || ('0' ≤ c && c ≤ '9') || c == '+' || c == '/'

/-- The 6-bit value of a Base64 alphabet character. -/
def b64Val (c : Char) : Nat :=
  if 'A' ≤ c && c ≤ 'Z' then c.toNat - 65
  else if 'a' ≤ c && c ≤ 'z' then c.toNat - 71
  else if '0' ≤ c && c ≤ '9' then c.toNat + 4
  else if c == '+' then 62
  else 63

/-- Decode a filtered Base64 string quad by quad; the final quad may carry
one or two `=` padding characters, any other placement of `=` or a length
that is not a multiple of 4 raises `binascii.Error`. -/
def b64Quads : List Char → Except PipeErr (List Nat)
  | [] => .ok []
  | a :: b :: c :: d :: rest =>
    if isB64Char a && isB64Char b then
      if c == '=' && d == '=' && rest.isEmpty then
        .ok [(b64Val a) * 4 + (b64Val b) / 16]
      else if isB64Char c && d == '=' && rest.isEmpty then
        .ok [(b64Val a) * 4 + (b64Val b) / 16, (b64Val b) % 16 * 16 + (b64Val c) / 4]
      else if isB64Char c && isB64Char d then
        (fun tl => ((b64Val a) * 4 + (b64Val b) / 16) ::
          ((b64Val b) % 16 * 16 + (b64Val c) / 4) ::
          ((b64Val c) % 4 * 64 + b64Val d) :: tl) <$> b64Quads rest
      else .error .b64InvalidLength
    else .error .b64InvalidLength
  | _ => .error .b64IncorrectPadding

/-- `decode_base64_seed` (decrypt.py lines 33-48): `base64.b64decode` of the
stored seed text, returning the raw ciphertext bytes. -/
def decode_base64_seed (encrypted_seed_b64 : String) : Except PipeErr (List Nat) :=
  if ∀ c ∈ encrypted_seed_b64.data, c.toNat < 128 then
    b64Quads (encrypted_seed_b64.data.filter (fun c => isB64Char c || c == '='))
  else .error .b64NonAscii

/-! ## Hex decoding and IV validation (the `get_iv` stage) -/

/-- The value of a hexadecimal digit (`0-9`, `a-f`, `A-F`), by ASCII code. -/
def hexDigit? (c : Char) : Option Nat :=
  if 48 ≤ c.toNat ∧ c.toNat ≤ 57 then some (c.toNat - 48)
  else if 97 ≤ c.toNat ∧ c.toNat ≤ 102 then some (c.toNat - 87)
  else if 65 ≤ c.toNat ∧ c.toNat ≤ 70 then some (c.toNat - 55)
  else none

/-- ASCII whitespace, which `bytes.fromhex` skips (space, tab, LF, VT, FF, CR). -/
def isWS (c : Char) : Bool :=
  c.toNat == 32 || c.toNat == 9 || c.toNat == 10 || c.toNat == 11 || c.toNat == 12 || c.toNat == 13

/-- Parse a whitespace-free character list as hex byte pairs; a stray or
non-hex character raises `ValueError` as in `bytes.fromhex`. -/
def hexPairs : List Char → Except PipeErr (List Nat)
  | [] => .ok []
  | [_] => .error .fromhexError
  | a :: b :: rest =>
    match hexDigit? a, hexDigit? b with
    | some hi, some lo => (fun tl => (16 * hi + lo) :: tl) <$> hexPairs rest
    | _, _ => .error .fromhexError

/-- `bytes.fromhex`: skip ASCII whitespace, then decode hex digit pairs. -/
def fromhex (s : String) : Except PipeErr (List Nat) :=
  hexPairs (s.data.filter (fun c => !isWS c))

/-- `get_iv` (decrypt.py lines 51-68): convert the hex IV string to bytes and
raise `ValueError("Invalid IV length: ...")` unless it is exactly 16 bytes. -/
def get_iv (unique_iv : String) : Except PipeErr (List Nat) := do
  let iv ← fromhex unique_iv
  if iv.length ≠ 16 then .error (.invalidIVLength iv.length) else .ok iv

/-! ## Padding removal (the `remove_padding` stage) -/

/-- `remove_padding` (decrypt.py lines 119-145): read the last byte as the
padding length, raise `ValueError` when it exceeds 16 or points before the
start of the data, check that every padding byte equals the padding length,
and return the data with the padding sliced off.  On empty input the Python
expression `decrypted_data[-1]` raises `IndexError` before any check. -/
def remove_padding (decrypted_data : List Nat) : Except PipeErr (List Nat) :=
  match decrypted_data.getLast? with
  | none => .error .indexOutOfRange
  | some padding_len =>
    let padding_start : Int := (decrypted_data.length : Int) - (padding_len : Int)
    if padding_len > 16 ∨ padding_start < 0 then .error .invalidPaddingLength
    else
      let padding_bytes := decrypted_data.drop (decrypted_data.length - padding_len)
      if padding_bytes.all (fun pad => pad == padding_len) then
        .ok (decrypted_data.take (decrypted_data.length - padding_len))
      else .error .invalidPaddingBytes

/-! ## Seed decoding (the `decode_decrypted_seed` stage) -/

/-- Strict UTF-8 decoding of a byte string (`bytes.decode("utf-8")`),
rejecting truncated sequences, overlong encodings, surrogates and code
points above U+10FFFF. -/
def utf8Decode : List Nat → Except PipeErr (List Char)
  | [] => .ok []
  | b1 :: rest =>
    if b1 ≤ 127 then
      (fun tl => Char.ofNat b1 :: tl) <$> utf8Decode rest
    else if 194 ≤ b1 && b1 ≤ 223 then
      match rest with
      | b2 :: rest2 =>
        if 128 ≤ b2 && b2 ≤ 191 then
          (fun tl => Char.ofNat ((b1 - 192) * 64 + (b2 - 128)) :: tl) <$> utf8Decode rest2
        else .error .unicodeDecodeError
      | [] => .error .unicodeDecodeError
    else if 224 ≤ b1 && b1 ≤ 239 then
      match rest with
      | b2 :: b3 :: rest3 =>
        let lowOk := if b1 == 224 then 160 ≤ b2 && b2 ≤ 191
                     else if b1 == 237 then 128 ≤ b2 && b2 ≤ 159
                     else 128 ≤ b2 && b2 ≤ 191
        if lowOk && (128 ≤ b3 && b3 ≤ 191) then
          (fun tl => Char.ofNat ((b1 - 224) * 4096 + (b2 - 128) * 64 + (b3 - 128)) :: tl) <$>
            utf8Decode rest3
        else .error .unicodeDecodeError
      | _ => .error .unicodeDecodeError
    else if 240 ≤ b1 && b1 ≤ 244 then
      match rest with
      | b2 :: b3 :: b4 :: rest4 =>
        let lowOk := if b1 == 240 then 144 ≤ b2 && b2 ≤ 191
                     else if b1 == 244 then 128 ≤ b2 && b2 ≤ 143
                     else 128 ≤ b2 && b2 ≤ 191
        if lowOk && (128 ≤ b3 && b3 ≤ 191) && (128 ≤ b4 && b4 ≤ 191) then
          (fun tl => Char.ofNat ((b1 - 240) * 262144 + (b2 - 128) * 4096 +
            (b3 - 128) * 64 + (b4 - 128)) :: tl) <$> utf8Decode rest4
        else .error .unicodeDecodeError
      | _ => .error .unicodeDecodeError
    else .error .unicodeDecodeError

/-- ASCII uppercasing of one character (Python `str.upper()`; the Unicode
case mappings of exotic non-ASCII cased letters are not modelled). -/
def upperChar (c : Char) : Char :=
  if 'a' ≤ c ∧ c ≤ 'z' then Char.ofNat (c.toNat - 32) else c

/-- Membership in the Base32 character class `[A-Z2-7=]` of the source's
regular expressions. -/
def isB32Char (c : Char) : Bool :=
  ('A' ≤ c && c ≤ 'Z') || ('2' ≤ c && c ≤ '7') || c == '='

/-- `re.match(r"^[A-Z2-7=]+$", s)`: the whole string consists of Base32
characters (Python's `$` also matches just before one final newline). -/
def fullMatchB32 (l : List Char) : Bool :=
  let core := if l.getLast? = some '\n' then l.dropLast else l
  !core.isEmpty && core.all isB32Char

/-- The maximal runs of Base32-class characters in a string, left to right;
`acc` holds the reversed run in progress. -/
def b32RunsAux : List Char → List Char → List (List Char)
  | [], acc => if acc.isEmpty then [] else [acc.reverse]
  | c :: rest, acc =>
    if isB32Char c then b32RunsAux rest (c :: acc)
    else if acc.isEmpty then b32RunsAux rest []
    else acc.reverse :: b32RunsAux rest []

/-- The maximal runs of Base32-class characters in a string. -/
def b32Runs (l : List Char) : List (List Char) := b32RunsAux l []

/-- `re.search(r"[A-Z2-7=]{10,}", s)`: the leftmost match of ten or more
Base32-class characters, extended greedily, i.e. the first maximal run of
length at least 10. -/
def firstLongRun (l : List Char) : Option (List Char) :=
  (b32Runs l).find? (fun r => decide (10 ≤ r.length))

/-- The printable-ASCII bytes (values 32-126) of a byte string, as characters
(decrypt.py lines 169-170). -/
def printable_ascii (bs : List Nat) : List Char :=
  (bs.filter (fun b => 32 ≤ b && b ≤ 126)).map Char.ofNat

/-- An uppercase hex digit. -/
def hexDigitChar (n : Nat) : Char :=
  if n < 10 then Char.ofNat (48 + n) else Char.ofNat (55 + n)

/-- `bytes.hex().upper()`: uppercase hex rendering of a byte string. -/
def hexUpper (bs : List Nat) : List Char :=
  (bs.map (fun b => [hexDigitChar (b / 16 % 16), hexDigitChar (b % 16)])).flatten

/-- `decode_decrypted_seed` (decrypt.py lines 148-181): try UTF-8 and
normalize a full Base32 match; on `UnicodeDecodeError` (the only exception
any operation here can raise, and it is caught) extract printable ASCII,
look for a Base32 run of length at least 10, fall back to the ASCII string
when it has at least 8 characters, and finally to an uppercase hex dump. -/
def decode_decrypted_seed (decrypted_seed_without_padding : List Nat) : Except PipeErr String :=
  match utf8Decode decrypted_seed_without_padding with
  | .ok u =>
    if fullMatchB32 ((u.map upperChar).filter (fun c => c != ' ')) then
      .ok (String.mk ((u.map upperChar).filter (fun c => c != ' ')))
    else .ok (String.mk u)
  | .error _ =>
    match firstLongRun ((printable_ascii decrypted_seed_without_padding).map upperChar) with
    | some r => .ok (String.mk r)
    | none =>
      if 8 ≤ (printable_ascii decrypted_seed_without_padding).length then
        .ok (String.mk (printable_ascii decrypted_seed_without_padding))
      else .ok (String.mk (hexUpper decrypted_seed_without_padding))

/-! ## Per-token orchestration (`decrypt_token`) -/

/-- The body of `decrypt_token`'s `try` block (decrypt.py lines 205-211):
the five stages run in sequence and the first exception aborts the chain. -/
def decryptPipeline (kdf_rounds : Nat) (encrypted_seed_b64 salt passphrase unique_iv : String) :
    Except PipeErr String := do
  let encrypted_seed ← decode_base64_seed encrypted_seed_b64
  let iv ← get_iv unique_iv
  let key := derive_key kdf_rounds salt passphrase
  let decrypted_data ← decrypt_data encrypted_seed key iv
  let decrypted_seed_without_padding ← remove_padding decrypted_data
  decode_decrypted_seed decrypted_seed_without_padding

/-- `decrypt_token` (decrypt.py lines 184-217): run the pipeline and catch
any exception, converting it into the per-token error string. -/
def decrypt_token (kdf_rounds : Nat) (encrypted_seed_b64 salt passphrase unique_iv : String) :
    String :=
  match decryptPipeline kdf_rounds encrypted_seed_b64 salt passphrase unique_iv with
  | .ok s => s
  | .error e => "Decryption failed: " ++ errMessage e

/-! ## Batch orchestration (`decrypt_all_tokens`, `process_authenticator_data`)

A token dictionary from the backup JSON: every field is optional, and
accessing a missing field raises `KeyError`.  `unique_iv` is the one field
the source reads with `token.get(...)` and a default. -/

structure RawToken where
  account_type : Option String
  name : Option String
  issuer : Option String
  encrypted_seed : Option String
  salt : Option String
  key_derivation_iterations : Option Nat
  digits : Option Nat
  logo : Option String
  unique_id : Option String
  unique_iv : Option String

/-- One output record of `decrypt_all_tokens` (decrypt.py lines 244-252). -/
structure DecryptedToken where
  account_type : String
  name : String
  issuer : String
  decrypted_seed : String
  digits : Nat
  logo : String
  unique_id : String

/-- The loop body of `decrypt_all_tokens` (decrypt.py lines 231-252), made
explicit: `acc` is the `decrypted_tokens` list built so far, and the second
component reports the `KeyError` that aborts the loop, leaving `acc` as the
work already performed.  Field accesses happen in the source's evaluation
order: the `decrypt_token` keyword arguments, then the fields of the
appended dictionary literal. -/
def decryptTokensAux (backup_password : String) (acc : List DecryptedToken) :
    List RawToken → List DecryptedToken × Option KeyErr
  | [] => (acc, none)
  | token :: rest =>
    let unique_iv := token.unique_iv.getD "00000000000000000000000000000000"
    match token.key_derivation_iterations with
    | none => (acc, some (.keyError "key_derivation_iterations"))
    | some kdf_rounds =>
    match token.encrypted_seed with
    | none => (acc, some (.keyError "encrypted_seed"))
    | some encrypted_seed_b64 =>
    match token.salt with
    | none => (acc, some (.keyError "salt"))
    | some salt =>
    let decrypted_seed := decrypt_token kdf_rounds encrypted_seed_b64 salt backup_password unique_iv
    match token.account_type with
    | none => (acc, some (.keyError "account_type"))
    | some account_type =>
    match token.name with
    | none => (acc, some (.keyError "name"))
    | some name =>
    match token.issuer with
    | none => (acc, some (.keyError "issuer"))
    | some issuer =>
    match token.digits with
    | none => (acc, some (.keyError "digits"))
    | some digits =>
    match token.logo with
    | none => (acc, some (.keyError "logo"))
    | some logo =>
    match token.unique_id with
    | none => (acc, some (.keyError "unique_id"))
    | some unique_id =>
    decryptTokensAux backup_password
      (acc ++ [⟨account_type, name, issuer, decrypted_seed, digits, logo, unique_id⟩]) rest

/-- `decrypt_all_tokens` (decrypt.py lines 220-254): decrypt every token in
input order; a `KeyError` from a missing required field propagates out of
the loop (it is *not* caught by `decrypt_token`'s handler), discarding the
list built so far. -/
def decrypt_all_tokens (tokens : List RawToken) (backup_password : String) :
    Except KeyErr (List DecryptedToken) :=
  match decryptTokensAux backup_password [] tokens with
  | (decrypted_tokens, none) => .ok decrypted_tokens
  | (_, some e) => .error e

/-- The parsed top-level JSON value: the `authenticator_tokens` key may be
missing. -/
structure RawData where
  authenticator_tokens : Option (List RawToken)

/-- `load_authenticator_data` (decrypt.py lines 13-30), with the file already
read and parsed: raise `KeyError` when `authenticator_tokens` is missing. -/
def load_authenticator_data (data : RawData) : Except KeyErr (List RawToken) :=
  match data.authenticator_tokens with
  | none => .error (.keyError "authenticator_tokens")
  | some tokens => .ok tokens

/-- The output JSON structure of `write_decrypted_tokens` (lines 265-269). -/
structure OutputData where
  message : String
  decrypted_authenticator_tokens : List DecryptedToken
  success : Bool

/-- `process_authenticator_data` (decrypt.py lines 279-315): load the data,
decrypt all tokens and build the output; every caught exception prints an
error and returns without writing the output file, modelled as `none`. -/
def process_authenticator_data (data : RawData) (backup_password : String) :
    Option OutputData :=
  match load_authenticator_data data with
  | .error _ => none
  | .ok tokens =>
    match decrypt_all_tokens tokens backup_password with
    | .error _ => none
    | .ok decrypted_tokens => some ⟨"success", decrypted_tokens, true⟩

/-! ## Statement helpers and concrete fixtures -/

/-- The record a well-formed token contributes to the output list: the
passthrough fields and the `decrypt_token` result (missing-field defaults
are irrelevant under `hasRequiredFields`). -/
def decryptedRecord (backup_password : String) (t : RawToken) : DecryptedToken :=
  { account_type := t.account_type.getD ""
    name := t.name.getD ""
    issuer := t.issuer.getD ""
    decrypted_seed := decrypt_token (t.key_derivation_iterations.getD 0)
      (t.encrypted_seed.getD "") (t.salt.getD "") backup_password
      (t.unique_iv.getD "00000000000000000000000000000000")
    digits := t.digits.getD 0
    logo := t.logo.getD ""
    unique_id := t.unique_id.getD "" }

/-- The pipeline `decrypt_token` runs for a given token record. -/
def tokenPipeline (t : RawToken) (backup_password : String) : Except PipeErr String :=
  decryptPipeline (t.key_derivation_iterations.getD 0) (t.encrypted_seed.getD "")
    (t.salt.getD "") backup_password (t.unique_iv.getD "00000000000000000000000000000000")

/-- Every field the batch loop reads with `token[...]` is present. -/
def hasRequiredFields (t : RawToken) : Prop :=
  t.key_derivation_iterations.isSome = true ∧ t.encrypted_seed.isSome = true ∧
  t.salt.isSome = true ∧ t.account_type.isSome = true ∧ t.name.isSome = true ∧
  t.issuer.isSome = true ∧ t.digits.isSome = true ∧ t.logo.isSome = true ∧
  t.unique_id.isSome = true

instance (t : RawToken) : Decidable (hasRequiredFields t) := by
  unfold hasRequiredFields; infer_instance

/-- A concrete token whose ciphertext is one byte after Base64 decoding, so
its pipeline fails at the block-length check of `decrypt_data`. -/
def sampleTok : RawToken :=
  { account_type := some "totp", name := some "alice", issuer := some "example",
    encrypted_seed := some "QQ==", salt := some "pepper",
    key_derivation_iterations := some 1, digits := some 6, logo := some "",
    unique_id := some "id1", unique_iv := some "00000000000000000000000000000000" }

/-- A token missing the required `key_derivation_iterations` field. -/
def sampleTokMissing : RawToken :=
  { sampleTok with key_derivation_iterations := none, unique_id := some "id2" }

/-- A token with no `unique_iv` field at all. -/
def sampleTokNoIV : RawToken :=
  { sampleTok with unique_iv := none, unique_id := some "id3" }

/-- A parsed backup whose second token is missing a required field. -/
def sampleData : RawData := ⟨some [sampleTok, sampleTokMissing]⟩

/-- Bytes that are invalid UTF-8 (leading `0xFF`) and whose printable part
is a 10-character Base32 run, a separator, then a 15-character Base32 run. -/
def noisyBytes : List Nat :=
  [255, 65, 66, 67, 68, 69, 70, 71, 72, 73, 74, 33,
   65, 66, 67, 68, 69, 70, 71, 72, 73, 74, 75, 76, 77, 78, 79]

/-! ## Lemmas about the batch loop -/

/-- A token with all required fields contributes exactly its record and the
loop continues. -/
theorem decryptTokensAux_cons_required (backup_password : String)
    (acc : List DecryptedToken) (t : RawToken) (rest : List RawToken)
    (ht : hasRequiredFields t) :
    decryptTokensAux backup_password acc (t :: rest) =
      decryptTokensAux backup_password (acc ++ [decryptedRecord backup_password t]) rest := by
  obtain ⟨h1, h2, h3, h4, h5, h6, h7, h8, h9⟩ := ht
  obtain ⟨v1, hv1⟩ := Option.isSome_iff_exists.mp h1
  obtain ⟨v2, hv2⟩ := Option.isSome_iff_exists.mp h2
  obtain ⟨v3, hv3⟩ := Option.isSome_iff_exists.mp h3
  obtain ⟨v4, hv4⟩ := Option.isSome_iff_exists.mp h4
  obtain ⟨v5, hv5⟩ := Option.isSome_iff_exists.mp h5
  obtain ⟨v6, hv6⟩ := Option.isSome_iff_exists.mp h6
  obtain ⟨v7, hv7⟩ := Option.isSome_iff_exists.mp h7
  obtain ⟨v8, hv8⟩ := Option.isSome_iff_exists.mp h8
  obtain ⟨v9, hv9⟩ := Option.isSome_iff_exists.mp h9
  simp [decryptTokensAux, decryptedRecord, hv1, hv2, hv3, hv4, hv5, hv6, hv7, hv8, hv9]

/-- Running the loop over a prefix of well-formed tokens appends exactly
their records to the accumulator. -/
theorem decryptTokensAux_append (backup_password : String) (pre : List RawToken)
    (rest : List RawToken) (acc : List DecryptedToken)
    (h : ∀ t ∈ pre, hasRequiredFields t) :
    decryptTokensAux backup_password acc (pre ++ rest) =
      decryptTokensAux backup_password
        (acc ++ pre.map (decryptedRecord backup_password)) rest := by
  induction pre generalizing acc with
  | nil => simp
  | cons t ts ih =>
    rw [List.cons_append, decryptTokensAux_cons_required backup_password acc t (ts ++ rest)
      (h t (by simp)), ih (acc ++ [decryptedRecord backup_password t])
      (fun t' ht' => h t' (by simp [ht']))]
    simp

/-- On a batch of well-formed tokens the loop terminates normally with one
record per token, in order. -/
theorem decryptTokensAux_ok (backup_password : String) (tokens : List RawToken)
    (acc : List DecryptedToken) (h : ∀ t ∈ tokens, hasRequiredFields t) :
    decryptTokensAux backup_password acc tokens =
      (acc ++ tokens.map (decryptedRecord backup_password), none) := by
  have := decryptTokensAux_append backup_password tokens [] acc h
  rw [List.append_nil] at this
  rw [this]
  rfl

/-- A token with a missing required field aborts the loop with a `KeyError`,
leaving the accumulator as it was. -/
theorem decryptTokensAux_missing (backup_password : String)
    (acc : List DecryptedToken) (t : RawToken) (rest : List RawToken)
    (ht : ¬ hasRequiredFields t) :
    ∃ e, decryptTokensAux backup_password acc (t :: rest) = (acc, some e) := by
  cases h1 : t.key_derivation_iterations with
  | none => exact ⟨.keyError "key_derivation_iterations", by simp [decryptTokensAux, h1]⟩
  | some v1 =>
  cases h2 : t.encrypted_seed with
  | none => exact ⟨.keyError "encrypted_seed", by simp [decryptTokensAux, h1, h2]⟩
  | some v2 =>
  cases h3 : t.salt with
  | none => exact ⟨.keyError "salt", by simp [decryptTokensAux, h1, h2, h3]⟩
  | some v3 =>
  cases h4 : t.account_type with
  | none => exact ⟨.keyError "account_type", by simp [decryptTokensAux, h1, h2, h3, h4]⟩
  | some v4 =>
  cases h5 : t.name with
  | none => exact ⟨.keyError "name", by simp [decryptTokensAux, h1, h2, h3, h4, h5]⟩
  | some v5 =>
  cases h6 : t.issuer with
  | none => exact ⟨.keyError "issuer", by simp [decryptTokensAux, h1, h2, h3, h4, h5, h6]⟩
  | some v6 =>
  cases h7 : t.digits with
  | none => exact ⟨.keyError "digits", by simp [decryptTokensAux, h1, h2, h3, h4, h5, h6, h7]⟩
  | some v7 =>
  cases h8 : t.logo with
  | none => exact ⟨.keyError "logo", by simp [decryptTokensAux, h1, h2, h3, h4, h5, h6, h7, h8]⟩
  | some v8 =>
  cases h9 : t.unique_id with
  | none => exact ⟨.keyError "unique_id", by simp [decryptTokensAux, h1, h2, h3, h4, h5, h6, h7, h8, h9]⟩
  | some v9 =>
  exact absurd ⟨by simp [h1], by simp [h2], by simp [h3], by simp [h4], by simp [h5],
    by simp [h6], by simp [h7], by simp [h8], by simp [h9]⟩ ht

/-! ## Lemmas about hex parsing -/

/-- Two-step list induction matching the shape of `hexPairs`. -/
theorem list_pair_induction {α : Type} {P : List α → Prop} (h0 : P []) (h1 : ∀ a, P [a])
    (h2 : ∀ a b l, P l → P (a :: b :: l)) : ∀ l, P l
  | [] => h0
  | [a] => h1 a
  | a :: b :: l => h2 a b l (list_pair_induction h0 h1 h2 l)

/-- An even-length string of hex digits parses into half as many bytes. -/
theorem hexPairs_ok (l : List Char) (hall : ∀ c ∈ l, (hexDigit? c).isSome = true)
    (heven : l.length % 2 = 0) :
    ∃ bs, hexPairs l = .ok bs ∧ 2 * bs.length = l.length := by
  induction l using list_pair_induction with
  | h0 => exact ⟨[], rfl, rfl⟩
  | h1 a => simp at heven
  | h2 a b l ih =>
    obtain ⟨x, hx⟩ := Option.isSome_iff_exists.mp (hall a (by simp))
    obtain ⟨y, hy⟩ := Option.isSome_iff_exists.mp (hall b (by simp))
    obtain ⟨bs, hbs, hlbs⟩ := ih (fun c hc => hall c (by simp [hc]))
      (by simp at heven ⊢; omega)
    refine ⟨(16 * x + y) :: bs, ?_, by simp; omega⟩
    simp [hexPairs, hx, hy, hbs]

/-- A hex digit is not ASCII whitespace (digits and letters sit above the
control and space range). -/
theorem hex_not_ws (c : Char) (h : (hexDigit? c).isSome = true) : (!isWS c) = true := by
  unfold hexDigit? at h
  split_ifs at h with ha hb hc
  · simp only [isWS, Bool.not_or, Bool.and_eq_true, Bool.not_eq_true',
      beq_eq_false_iff_ne, ne_eq]
    omega
  · simp only [isWS, Bool.not_or, Bool.and_eq_true, Bool.not_eq_true',
      beq_eq_false_iff_ne, ne_eq]
    omega
  · simp only [isWS, Bool.not_or, Bool.and_eq_true, Bool.not_eq_true',
      beq_eq_false_iff_ne, ne_eq]
    omega
  · simp at h

/-! ## Lemmas about Base32 runs -/

/-- Every run produced by `b32RunsAux` consists of Base32-class characters
and occurs contiguously in the remaining input preceded by the reversed
accumulator. -/
theorem b32RunsAux_mem (l : List Char) : ∀ (acc : List Char),
    (∀ c ∈ acc, isB32Char c = true) →
    ∀ r ∈ b32RunsAux l acc, (∀ c ∈ r, isB32Char c = true) ∧ r <:+: (acc.reverse ++ l) := by
  induction l with
  | nil =>
    intro acc hacc r hr
    cases acc with
    | nil => simp [b32RunsAux] at hr
    | cons a as =>
      rw [b32RunsAux] at hr
      simp only [List.isEmpty_cons, if_neg Bool.false_ne_true, List.mem_singleton] at hr
      subst hr
      refine ⟨fun c hc => hacc c (List.mem_reverse.mp hc), ?_⟩
      simp
  | cons c rest ih =>
    intro acc hacc r hr
    rw [b32RunsAux] at hr
    by_cases hc : isB32Char c = true
    · rw [if_pos hc] at hr
      have := ih (c :: acc) (by
        intro x hx
        rcases List.mem_cons.mp hx with h | h
        · exact h ▸ hc
        · exact hacc x h) r hr
      refine ⟨this.1, ?_⟩
      have h2 := this.2
      rwa [List.reverse_cons, List.append_assoc, List.singleton_append] at h2
    · rw [if_neg hc] at hr
      cases acc with
      | nil =>
        rw [if_pos (by simp : ([] : List Char).isEmpty = true)] at hr
        have := ih [] (by simp) r hr
        refine ⟨this.1, ?_⟩
        have h2 : r <:+: rest := by simpa using this.2
        simpa using h2.trans (List.suffix_cons c rest).isInfix
      | cons a as =>
        rw [List.isEmpty_cons, if_neg Bool.false_ne_true] at hr
        rcases List.mem_cons.mp hr with h | h
        · subst h
          refine ⟨fun x hx => hacc x (List.mem_reverse.mp hx), ?_⟩
          exact (List.prefix_append (a :: as).reverse (c :: rest)).isInfix
        · have := ih [] (by simp) r h
          have h2 : r <:+: rest := by simpa using this.2
          exact ⟨this.1,
            h2.trans ((List.suffix_cons c rest).trans
              (List.suffix_append (a :: as).reverse (c :: rest))).isInfix⟩

/-! ## Claim theorems -/

/-- C1: For every batch of N well-formed token records and every passphrase,
`decrypt_all_tokens` returns exactly N output records, the i-th produced
from the i-th input; whenever a token's pipeline raises inside
`decrypt_token`, that token's record carries
`"Decryption failed: " ++ cause` as its `decrypted_seed`, and no other
token's record is affected. -/
theorem decrypt_all_tokens_batch (tokens : List RawToken) (backup_password : String)
    (hreq : ∀ t ∈ tokens, hasRequiredFields t) :
    ∃ out, decrypt_all_tokens tokens backup_password = .ok out ∧
      out = tokens.map (decryptedRecord backup_password) ∧
      out.length = tokens.length ∧
      ∀ i (hi : i < tokens.length) (e : PipeErr),
        tokenPipeline (tokens.get ⟨i, hi⟩) backup_password = .error e →
        ∃ r, out.get? i = some r ∧
          r.decrypted_seed = "Decryption failed: " ++ errMessage e := by
  have hmap := decryptTokensAux_ok backup_password tokens [] hreq
  rw [List.nil_append] at hmap
  refine ⟨tokens.map (decryptedRecord backup_password), ?_, rfl, by simp, ?_⟩
  · unfold decrypt_all_tokens
    rw [hmap]
  · intro i hi e hpe
    refine ⟨decryptedRecord backup_password (tokens.get ⟨i, hi⟩), ?_, ?_⟩
    · rw [List.get?_map, List.get?_eq_get hi]
      rfl
    · have hseed : decrypt_token ((tokens.get ⟨i, hi⟩).key_derivation_iterations.getD 0)
          ((tokens.get ⟨i, hi⟩).encrypted_seed.getD "")
          ((tokens.get ⟨i, hi⟩).salt.getD "") backup_password
          ((tokens.get ⟨i, hi⟩).unique_iv.getD "00000000000000000000000000000000") =
          "Decryption failed: " ++ errMessage e := by
        unfold tokenPipeline at hpe
        unfold decrypt_token
        rw [hpe]
      simpa [decryptedRecord] using hseed

/-- C1 witness: a one-token batch whose pipeline fails at the block-length
check still yields one record holding the error string. -/
theorem decrypt_all_tokens_batch_witness :
    ∃ out, decrypt_all_tokens [sampleTok] "p" = .ok out ∧ out.length = 1 ∧
      ∃ r, out.get? 0 = some r ∧
        r.decrypted_seed = "Decryption failed: " ++ errMessage .notMultipleOfBlock := by
  obtain ⟨out, h1, _, h3, h4⟩ := decrypt_all_tokens_batch [sampleTok] "p" (by decide)
  exact ⟨out, h1, h3, h4 0 (by decide) .notMultipleOfBlock rfl⟩

/-- C2 counterexample: a non-empty byte string whose last byte is 0 is
returned unchanged by `remove_padding`, so the claimed `InvalidPadding`
failure does not occur. -/
theorem remove_padding_zero_accepted :
    ([1, 0] : List Nat).getLast? = some 0 ∧ remove_padding [1, 0] = .ok [1, 0] :=
  ⟨rfl, rfl⟩

/-- C2 amended: for every non-empty byte string whose last byte is 0,
`remove_padding` silently accepts the padding length 0 and returns the
input unchanged (the range check `n > 16` does not reject `n = 0`). -/
theorem remove_padding_zero_returns_input (data : List Nat)
    (h0 : data.getLast? = some 0) : remove_padding data = .ok data := by
  unfold remove_padding
  rw [h0]
  dsimp only
  rw [if_neg (by simp)]
  simp

/-- C2 amended witness. -/
theorem remove_padding_zero_returns_input_witness :
    remove_padding [5, 7, 0] = .ok [5, 7, 0] :=
  remove_padding_zero_returns_input [5, 7, 0] rfl

/-- C5: when a byte string ends in n bytes of value n (1 ≤ n ≤ 16, n within
the length), `remove_padding` strips exactly those n bytes (an all-padding
16-byte block yields the empty string); when the last byte exceeds 16,
exceeds the length, or the claimed padding bytes are inconsistent, it fails
with the `InvalidPadding` condition (`ValueError`, rendered as
"Invalid padding length" or "Invalid padding bytes"). -/
theorem remove_padding_cases (data : List Nat) (n : Nat)
    (hlast : data.getLast? = some n) :
    (1 ≤ n → n ≤ 16 → n ≤ data.length →
      (data.drop (data.length - n)).all (fun pad => pad == n) = true →
      remove_padding data = .ok (data.take (data.length - n))) ∧
    (16 < n → remove_padding data = .error .invalidPaddingLength) ∧
    (data.length < n → remove_padding data = .error .invalidPaddingLength) ∧
    (n ≤ 16 → n ≤ data.length →
      (data.drop (data.length - n)).all (fun pad => pad == n) = false →
      remove_padding data = .error .invalidPaddingBytes) := by
  unfold remove_padding
  rw [hlast]
  dsimp only
  refine ⟨?_, ?_, ?_, ?_⟩
  · intro h1 h16 hlen hall
    rw [if_neg (by omega)]
    simp only [hall, if_true]
  · intro h16
    rw [if_pos (Or.inl h16)]
  · intro hlen
    rw [if_pos (Or.inr (by omega))]
  · intro h16 hlen hall
    rw [if_neg (by omega)]
    simp [hall]

/-- C5 witness: a valid one-byte padding is stripped. -/
theorem remove_padding_cases_witness : remove_padding [9, 1] = .ok [9] :=
  (remove_padding_cases [9, 1] 1 rfl).1 (by decide) (by decide) (by decide) (by decide)

/-- C10: on the empty byte string `remove_padding` fails with the
out-of-bounds index access of `decrypted_data[-1]` (`IndexError`), which is
distinct from both `InvalidPadding` errors, and this failure is converted
into the per-token error string only by `decrypt_token`'s catch-all (shown
on a token whose ciphertext is empty). -/
theorem remove_padding_empty_index_error :
    remove_padding ([] : List Nat) = .error .indexOutOfRange ∧
    PipeErr.indexOutOfRange ≠ PipeErr.invalidPaddingLength ∧
    PipeErr.indexOutOfRange ≠ PipeErr.invalidPaddingBytes ∧
    decrypt_token 1 "" "pepper" "p" "00000000000000000000000000000000" =
      "Decryption failed: index out of range" :=
  ⟨rfl, by decide, by decide, by decide⟩

/-- C3 counterexample: on invalid-UTF-8 input whose printable part contains
a 10-character Base32 run followed by a 15-character one,
`decode_decrypted_seed` returns the first run, although a strictly longer
contiguous Base32 run occurs later in the extracted ASCII string. -/
theorem decode_decrypted_seed_not_longest :
    decode_decrypted_seed noisyBytes = .ok "ABCDEFGHIJ" ∧
    "ABCDEFGHIJ".length < "ABCDEFGHIJKLMNO".length ∧
    "ABCDEFGHIJKLMNO".data <:+: (printable_ascii noisyBytes).map upperChar ∧
    (∀ c ∈ "ABCDEFGHIJKLMNO".data, isB32Char c = true) :=
  ⟨rfl, by decide, by decide, by decide⟩

/-- C3 amended: on input that is not valid UTF-8, when the uppercased
printable-ASCII extraction contains a run of at least 10 Base32-class
characters, `decode_decrypted_seed` returns the *first* (leftmost) maximal
such run — a contiguous Base32 substring of length at least 10 — rather
than the longest one. -/
theorem decode_decrypted_seed_first_long_run (bs : List Nat) (e : PipeErr)
    (hutf : utf8Decode bs = .error e) (r : List Char)
    (hr : firstLongRun ((printable_ascii bs).map upperChar) = some r) :
    decode_decrypted_seed bs = .ok (String.mk r) ∧ 10 ≤ r.length ∧
      (∀ c ∈ r, isB32Char c = true) ∧
      r <:+: (printable_ascii bs).map upperChar := by
  have hr' : (b32Runs ((printable_ascii bs).map upperChar)).find?
      (fun run => decide (10 ≤ run.length)) = some r := hr
  have hmem : r ∈ b32Runs ((printable_ascii bs).map upperChar) :=
    List.mem_of_find?_eq_some hr'
  have hp := List.find?_some hr'
  have hlen : 10 ≤ r.length := of_decide_eq_true (by simpa using hp)
  have hprops := b32RunsAux_mem ((printable_ascii bs).map upperChar) [] (by simp) r hmem
  refine ⟨?_, hlen, hprops.1, by simpa using hprops.2⟩
  unfold decode_decrypted_seed
  rw [hutf]
  dsimp only
  rw [hr]

/-- C3 amended witness: the theorem applied to the two-run input. -/
theorem decode_decrypted_seed_first_long_run_witness :
    decode_decrypted_seed noisyBytes = .ok (String.mk "ABCDEFGHIJ".data) ∧
      10 ≤ "ABCDEFGHIJ".data.length ∧
      (∀ c ∈ "ABCDEFGHIJ".data, isB32Char c = true) ∧
      "ABCDEFGHIJ".data <:+: (printable_ascii noisyBytes).map upperChar :=
  decode_decrypted_seed_first_long_run noisyBytes .unicodeDecodeError rfl
    "ABCDEFGHIJ".data rfl

/-- C4 counterexample: a string containing `!`, which is outside the Base64
alphabet, is decoded successfully by `decode_base64_seed`, the invalid
character being silently discarded. -/
theorem decode_base64_seed_accepts_invalid_char :
    decode_base64_seed "QU!JD" = .ok [65, 66, 67] ∧ isB64Char '!' = false ∧
      '!' ∈ "QU!JD".data :=
  ⟨rfl, rfl, by decide⟩

/-- C4 amended: for every ASCII input string, `decode_base64_seed` decodes
exactly as if every character outside the Base64 alphabet and `=` had first
been removed: out-of-alphabet characters are silently filtered, not a hard
failure (only the filtered string's length and padding placement can fail). -/
theorem decode_base64_seed_filter_invariant (s : String)
    (h : ∀ c ∈ s.data, c.toNat < 128) :
    decode_base64_seed s =
      decode_base64_seed (String.mk (s.data.filter (fun c => isB64Char c || c == '='))) := by
  unfold decode_base64_seed
  rw [if_pos h, if_pos (fun c hc => h c (List.mem_of_mem_filter hc))]
  congr 1
  rw [show (String.mk (s.data.filter fun c => isB64Char c || c == '=')).data
      = s.data.filter (fun c => isB64Char c || c == '=') from rfl]
  rw [List.filter_filter]
  simp

/-- C4 amended witness. -/
theorem decode_base64_seed_filter_invariant_witness :
    decode_base64_seed "QU!JD" =
      decode_base64_seed (String.mk ("QU!JD".data.filter (fun c => isB64Char c || c == '='))) :=
  decode_base64_seed_filter_invariant "QU!JD" (by decide)

/-- C6: a string of 32 hex digits decodes to a 16-byte IV and `get_iv`
succeeds; whenever the hex decode succeeds with a byte length other than
16 (e.g. from a 30- or 34-character hex string), `get_iv` fails with the
`InvalidIV` condition (`ValueError("Invalid IV length: ...")`). -/
theorem get_iv_spec (s : String) :
    ((∀ c ∈ s.data, (hexDigit? c).isSome = true) → s.data.length = 32 →
      ∃ iv, get_iv s = .ok iv ∧ iv.length = 16) ∧
    (∀ bs, fromhex s = .ok bs → bs.length ≠ 16 →
      get_iv s = .error (.invalidIVLength bs.length)) := by
  constructor
  · intro hhex hlen
    have hfil : s.data.filter (fun c => !isWS c) = s.data :=
      List.filter_eq_self.mpr (fun c hc => hex_not_ws c (hhex c hc))
    obtain ⟨bs, hbs, hl⟩ := hexPairs_ok s.data hhex (by omega)
    have h16 : bs.length = 16 := by omega
    refine ⟨bs, ?_, h16⟩
    unfold get_iv fromhex
    rw [hfil, hbs]
    change (if bs.length ≠ 16 then Except.error (PipeErr.invalidIVLength bs.length)
      else Except.ok bs) = Except.ok bs
    rw [if_neg (not_not_intro h16)]
  · intro bs hbs hne
    unfold get_iv
    rw [hbs]
    change (if bs.length ≠ 16 then Except.error (PipeErr.invalidIVLength bs.length)
      else Except.ok bs) = Except.error (PipeErr.invalidIVLength bs.length)
    rw [if_pos hne]

/-- C6 witness: the all-zero 32-hex-digit IV string decodes to 16 bytes. -/
theorem get_iv_spec_witness :
    ∃ iv, get_iv "00000000000000000000000000000000" = .ok iv ∧ iv.length = 16 :=
  (get_iv_spec "00000000000000000000000000000000").1 (by decide) (by decide)

/-- C7: a well-formed token whose `unique_iv` field is absent is not
failed: `decrypt_all_tokens` still produces its record, decrypting with the
default IV string of 32 zero hex characters, which is the all-zero 16-byte
IV. -/
theorem decrypt_all_tokens_default_iv (tokens : List RawToken)
    (backup_password : String) (i : Nat) (hi : i < tokens.length)
    (hreq : ∀ t ∈ tokens, hasRequiredFields t)
    (hiv : (tokens.get ⟨i, hi⟩).unique_iv = none) :
    ("00000000000000000000000000000000" : String).data = List.replicate 32 '0' ∧
    get_iv "00000000000000000000000000000000" = .ok (List.replicate 16 0) ∧
    ∃ out r, decrypt_all_tokens tokens backup_password = .ok out ∧
      out.get? i = some r ∧
      r.decrypted_seed = decrypt_token
        ((tokens.get ⟨i, hi⟩).key_derivation_iterations.getD 0)
        ((tokens.get ⟨i, hi⟩).encrypted_seed.getD "")
        ((tokens.get ⟨i, hi⟩).salt.getD "") backup_password
        "00000000000000000000000000000000" := by
  refine ⟨by decide, rfl, ?_⟩
  have hmap := decryptTokensAux_ok backup_password tokens [] hreq
  rw [List.nil_append] at hmap
  refine ⟨tokens.map (decryptedRecord backup_password),
    decryptedRecord backup_password (tokens.get ⟨i, hi⟩), ?_, ?_, ?_⟩
  · unfold decrypt_all_tokens
    rw [hmap]
  · rw [List.get?_map, List.get?_eq_get hi]
    rfl
  · have hiv2 : tokens[i].unique_iv = none := hiv
    simp [decryptedRecord, hiv2]

/-- C7 witness: a concrete token with no `unique_iv` field. -/
theorem decrypt_all_tokens_default_iv_witness :
    ∃ out r, decrypt_all_tokens [sampleTokNoIV] "p" = .ok out ∧
      out.get? 0 = some r ∧
      r.decrypted_seed = decrypt_token 1 "QQ==" "pepper" "p"
        "00000000000000000000000000000000" :=
  (decrypt_all_tokens_default_iv [sampleTokNoIV] "p" 0 (by decide) (by decide) rfl).2.2

/-- C8: the seed decoder is total — for every byte string (empty, invalid
UTF-8 or without printable bytes included) `decode_decrypted_seed` returns
a string; its only internal failure (`UnicodeDecodeError`) is caught and
routed into the fallback ladder. -/
theorem decode_decrypted_seed_total (bs : List Nat) :
    ∃ s, decode_decrypted_seed bs = .ok s := by
  unfold decode_decrypted_seed
  cases hu : utf8Decode bs with
  | ok u =>
    dsimp only
    split
    · exact ⟨_, rfl⟩
    · exact ⟨_, rfl⟩
  | error e =>
    dsimp only
    cases hr : firstLongRun ((printable_ascii bs).map upperChar) with
    | some r => exact ⟨_, rfl⟩
    | none =>
      by_cases h8 : 8 ≤ (printable_ascii bs).length
      · rw [if_pos h8]
        exact ⟨_, rfl⟩
      · rw [if_neg h8]
        exact ⟨_, rfl⟩

/-- C9 counterexample: with a batch whose second token is missing
`key_derivation_iterations`, the run is batch-fatal and writes no output,
but the abort does **not** happen before any token processing begins: at
the moment the `KeyError` is raised, the loop has already fully processed
the first token (its record, with a computed `decrypted_seed`, sits in the
accumulator). -/
theorem missing_field_processed_prefix :
    process_authenticator_data sampleData "p" = none ∧
    (decryptTokensAux "p" [] [sampleTok, sampleTokMissing]).1.length = 1 ∧
    ∃ r, (decryptTokensAux "p" [] [sampleTok, sampleTokMissing]).1 = [r] ∧
      r.decrypted_seed =
        "Decryption failed: The length of the provided data is not a multiple of the block length." :=
  ⟨rfl, rfl, decryptedRecord "p" sampleTok, rfl, by decide⟩

/-- C9 amended: a missing top-level `authenticator_tokens` key aborts before
any token processing; a missing required per-token field makes the batch
fatal at that token — the error propagates, no output value is produced —
but every earlier well-formed token has already been processed (their
records are in the loop's accumulator when the `KeyError` is raised) and
that work is discarded. -/
theorem missing_key_batch_fatal (data : RawData) (backup_password : String) :
    (data.authenticator_tokens = none →
      process_authenticator_data data backup_password = none) ∧
    (∀ tokens pre t post, data.authenticator_tokens = some tokens →
      tokens = pre ++ t :: post →
      (∀ u ∈ pre, hasRequiredFields u) → ¬ hasRequiredFields t →
      process_authenticator_data data backup_password = none ∧
      ∃ e, decryptTokensAux backup_password [] tokens =
        (pre.map (decryptedRecord backup_password), some e)) := by
  constructor
  · intro h
    unfold process_authenticator_data load_authenticator_data
    rw [h]
  · intro tokens pre t post hsome hsplit hpre ht
    have haux : ∃ e, decryptTokensAux backup_password [] tokens =
        (pre.map (decryptedRecord backup_password), some e) := by
      rw [hsplit, decryptTokensAux_append backup_password pre (t :: post) [] hpre,
        List.nil_append]
      exact decryptTokensAux_missing backup_password
        (pre.map (decryptedRecord backup_password)) t post ht
    refine ⟨?_, haux⟩
    obtain ⟨e, he⟩ := haux
    unfold process_authenticator_data load_authenticator_data
    rw [hsome]
    dsimp only
    unfold decrypt_all_tokens
    rw [he]

/-- C9 amended witness: the concrete two-token batch. -/
theorem missing_key_batch_fatal_witness :
    process_authenticator_data sampleData "p" = none ∧
    ∃ e, decryptTokensAux "p" [] [sampleTok, sampleTokMissing] =
      ([decryptedRecord "p" sampleTok], some e) := by
  have h := (missing_key_batch_fatal sampleData "p").2 [sampleTok, sampleTokMissing]
    [sampleTok] sampleTokMissing [] rfl rfl (by decide) (by decide)
  exact ⟨h.1, h.2⟩
